import Mathlib

set_option maxHeartbeats 1000000

namespace AlibabaCloud

/-!
Shallow embedding of the endpoint-resolution and request-signing core of the
`alibabacloud` Python SDK, covering
`alibabacloud/endpoint/location_service_endpoint_resolver.py` and
`alibabacloud/signer/composer.py`.  Python dictionaries are modelled as
insertion-ordered association lists, Python sets as duplicate-free lists, and
the external collaborators (the describe-endpoint network call, the clock, the
UUID generator, the MD5 helper and the signing algorithm) as explicit inputs.
Definitions come first, then the supporting lemmas and the theorems about the
claims.
-/

/-! ## Python dictionaries, sets and strings -/

/-- Python `d.get(k)` on a dict modelled as an insertion-ordered association
list: the value at the binding of `k`, if any. -/
def dget {α : Type} : List (String × α) → String → Option α
  | [], _ => none
  | (k', v) :: rest, k => if k' = k then some v else dget rest k

/-- Python `d[k] = v`: replace the value at an existing binding in place
(keeping its position), else append the new binding at the end. -/
def dset {α : Type} : List (String × α) → String → α → List (String × α)
  | [], k, v => [(k, v)]
  | (k', v') :: rest, k, v =>
    if k' = k then (k, v) :: rest else (k', v') :: dset rest k v

/-- Python `d.update(e)`: fold the entries of `e` into `d` in order. -/
def dsetAll {α : Type} (d : List (String × α)) (e : List (String × α)) :
    List (String × α) :=
  e.foldl (fun acc p => dset acc p.1 p.2) d

/-- Python `s.add(x)` on a set, modelled as a duplicate-free list. -/
def addToSet (l : List String) (x : String) : List String :=
  if l.contains x then l else l ++ [x]

/-- Python `str.lower()` (the inputs handled by this SDK are ASCII). -/
def pyLower (s : String) : String := String.mk (s.data.map Char.toLower)

/-- Python `str.upper()` (the inputs handled by this SDK are ASCII). -/
def pyUpper (s : String) : String := String.mk (s.data.map Char.toUpper)

/-- Lexicographic comparison of character lists by code point. -/
def charListLt : List Char → List Char → Bool
  | [], [] => false
  | [], _ :: _ => true
  | _ :: _, [] => false
  | a :: as, b :: bs => a.toNat < b.toNat || (a.toNat == b.toNat && charListLt as bs)

/-- Python `<` on strings: lexicographic by code point. -/
def strLt (a b : String) : Bool := charListLt a.data b.data

/-- Insert a pair into a list sorted by key, after all strictly smaller keys
and before all others (so earlier elements stay before later elements with an
equal key). -/
def insertByKey {α : Type} (x : String × α) :
    List (String × α) → List (String × α)
  | [] => [x]
  | y :: rest => if strLt y.1 x.1 then y :: insertByKey x rest else x :: y :: rest

/-- Python `sorted(iteritems(d), key=lambda p: p[0])`: a stable sort of the
entries by key. -/
def sortByKey {α : Type} : List (String × α) → List (String × α)
  | [] => []
  | x :: xs => insertByKey x (sortByKey xs)

/-- Python `s.endswith(c)` for a single character. -/
def lastCharIs (s : String) (c : Char) : Bool := s.data.getLast? == some c

/-- Python `s[0:len(s)-1]`. -/
def strDropLast (s : String) : String := String.mk s.data.dropLast

/-- Concatenation of a list of strings. -/
def stringJoin : List String → String
  | [] => ""
  | s :: rest => s ++ stringJoin rest

/-- Whether `sub` occurs as a contiguous sublist. -/
def listContainsSub (sub : List Char) : List Char → Bool
  | [] => sub.isEmpty
  | c :: rest => sub.isPrefixOf (c :: rest) || listContainsSub sub rest

/-- Python `s.find(sub) >= 0`: substring containment. -/
def strContains (s sub : String) : Bool := listContainsSub sub.data s.data

/-- Replace every non-overlapping occurrence of `sub` by `repl`, scanning left
to right; the fuel bounds the recursion and one unit is spent per consumed
character. -/
def replaceListFuel (sub repl : List Char) : Nat → List Char → List Char
  | _, [] => []
  | 0, l => l
  | fuel + 1, c :: rest =>
    if sub.isPrefixOf (c :: rest) && !sub.isEmpty then
      repl ++ replaceListFuel sub repl fuel (rest.drop (sub.length - 1))
    else c :: replaceListFuel sub repl fuel rest

/-- Python `s.replace(sub, repl)` for a non-empty `sub`: every non-overlapping
occurrence, left to right. -/
def strReplace (s sub repl : String) : String :=
  String.mk (replaceListFuel sub.data repl.data s.data.length s.data)

/-- Python `uri.rsplit("?", 1)`: split at the last question mark, if any,
returning the part before it and the part after it. -/
def rsplitQ (uri : String) : String × Option String :=
  match uri.data.reverse.span (fun c => c ≠ '?') with
  | (_, []) => (uri, none)
  | (afterRev, _ :: beforeRev) =>
    (String.mk beforeRev.reverse, some (String.mk afterRev.reverse))

/-- Python `uri.split("?", 1)`: split at the first question mark, if any. -/
def splitFirstQ (uri : String) : String × Option String :=
  match uri.data.span (fun c => c ≠ '?') with
  | (_, []) => (uri, none)
  | (before, _ :: after) => (String.mk before, some (String.mk after))

/-- The sixteen uppercase hexadecimal digits. -/
def hexDigitChar : Nat → Char
  | 0 => '0' | 1 => '1' | 2 => '2' | 3 => '3' | 4 => '4' | 5 => '5' | 6 => '6'
  | 7 => '7' | 8 => '8' | 9 => '9' | 10 => 'A' | 11 => 'B' | 12 => 'C'
  | 13 => 'D' | 14 => 'E' | 15 => 'F' | _ => '0'

/-- The UTF-8 bytes of one character, as naturals. -/
def utf8Bytes (c : Char) : List Nat :=
  let n := c.toNat
  if n < 128 then [n]
  else if n < 2048 then [192 + n / 64, 128 + n % 64]
  else if n < 65536 then [224 + n / 4096, 128 + n / 64 % 64, 128 + n % 64]
  else [240 + n / 262144, 128 + n / 4096 % 64, 128 + n / 64 % 64, 128 + n % 64]

/-- A percent-escaped byte, `%XX` with uppercase hex digits. -/
def percentByte (n : Nat) : String :=
  String.mk ['%', hexDigitChar (n / 16 % 16), hexDigitChar (n % 16)]

/-- The characters `urllib` never escapes: ASCII letters, digits and
`_.-~`. -/
def isAlwaysSafe (c : Char) : Bool :=
  c.isAlpha || c.isDigit || c == '_' || c == '.' || c == '-' || c == '~'

/-- Modelled from the spec: the standard percent-quoting of one character
(Python `urllib.parse.quote` on a single character, UTF-8 encoded), with an
extra set of safe characters. -/
def quoteChar (safe : List Char) (c : Char) : String :=
  if isAlwaysSafe c || safe.contains c then String.mk [c]
  else stringJoin ((utf8Bytes c).map percentByte)

/-- Quote every character of a list. -/
def quoteList (safe : List Char) : List Char → String
  | [] => ""
  | c :: cs => quoteChar safe c ++ quoteList safe cs

/-- Modelled from the spec: Python `urllib.parse.quote(s, safe)`. -/
def quote (safe : List Char) (s : String) : String := quoteList safe s.data

/-- One character of `urllib.parse.quote_plus`: a space becomes `+`, anything
else is quoted with no safe characters. -/
def quotePlusChar (c : Char) : String :=
  if c == ' ' then "+" else quoteChar [] c

/-- Form-quoting of a character list. -/
def quotePlusList : List Char → String
  | [] => ""
  | c :: cs => quotePlusChar c ++ quotePlusList cs

/-- Modelled from the spec: Python `urllib.parse.quote_plus(s)`, the standard
form-encoding of one string. -/
def quotePlus (s : String) : String := quotePlusList s.data

/-- Python `str(x)` on a string-or-`None` value (`str(None) = "None"`). -/
def pyStr : Option String → String
  | none => "None"
  | some s => s

/-- One `key=value` fragment of a form-encoded query string. -/
def encodePair (p : String × Option String) : String :=
  quotePlus p.1 ++ "=" ++ quotePlus (pyStr p.2)

/-- Modelled from the spec: Python `urllib.parse.urlencode` (re-exported by
`alibabacloud.compat`, which is not under the sources provided), applied to a
sequence of key/value pairs: the form-encoded fragments joined with `&`. -/
def urlencode : List (String × Option String) → String
  | [] => ""
  | [p] => encodePair p
  | p :: q :: rest => encodePair p ++ "&" ++ urlencode (q :: rest)

/-- Modelled from the spec: Python `urllib.request.pathname2url` on a POSIX
system (re-exported by the vendored `six`): `quote` with `/` kept safe. -/
def pathname2url (s : String) : String := quote ['/'] s

/-- Decidable equality for `Except` results. -/
instance exceptDecEq {ε α : Type} [DecidableEq ε] [DecidableEq α] :
    DecidableEq (Except ε α) := fun x y =>
  match x, y with
  | .ok a, .ok b =>
    if h : a = b then isTrue (by rw [h])
    else isFalse (fun hh => by cases hh; exact h rfl)
  | .error a, .error b =>
    if h : a = b then isTrue (by rw [h])
    else isFalse (fun hh => by cases hh; exact h rfl)
  | .ok _, .error _ => isFalse (fun hh => by cases hh)
  | .error _, .ok _ => isFalse (fun hh => by cases hh)

/-! ## Endpoint resolver

Embedding of `alibabacloud/endpoint/location_service_endpoint_resolver.py`,
class `LocationServiceEndpointResolver`.  The `DescribeEndpointCaller.fetch`
network call is an explicit input: either a parsed endpoint list (the decoded
`body["Endpoints"]["Endpoint"]` array) or the exception it raises. -/

namespace Resolver

/-- The fields of an API request consulted by the resolver.  A Python
`location_service_code` of `None` is modelled as the empty string (both are
falsy in the `if not request.location_service_code` test).
`product_code_lower` (an attribute of the request class, not under the sources
provided) is modelled, following the spec's key-normalization rule, as the
lower-cased product code. -/
structure Request where
  productCode : String
  locationServiceCode : String
  regionId : String
  endpointType : String
deriving Repr, DecidableEq

/-- Python `request.product_code_lower`. -/
def Request.productCodeLower (r : Request) : String := pyLower r.productCode

/-- One entry of the decoded `body["Endpoints"]["Endpoint"]` array; each field
is `item.get(...)`, hence optional. -/
structure EndpointItem where
  serviceCode : Option String
  serivceCode : Option String
  itemType : Option String
  endpoint : Option String
deriving Repr, DecidableEq

/-- An exception raised by `DescribeEndpointCaller.fetch`: either a
`ServerException` carrying an error code and message, or any other exception
(opaque here). -/
inductive FetchError where
  | server (code : String) (msg : String)
  | other (tag : String)
deriving Repr, DecidableEq

/-- The outcome of the external `DescribeEndpointCaller.fetch` call. -/
abbrev FetchResult := Except FetchError (List EndpointItem)

/-- The mutable state of one `LocationServiceEndpointResolver` instance:
`endpoints_data` (inherited from `EndpointResolverBase`) and the four code
sets initialized empty in `__init__`. -/
structure ResolverState where
  endpointsData : List (String × Option String)
  invalidProductCodes : List String
  invalidRegionIds : List String
  validProductCodes : List String
  validRegionIds : List String
deriving Repr, DecidableEq

/-- The state right after `__init__`. -/
def initialState : ResolverState := ⟨[], [], [], [], []⟩

/-- Modelled from the spec: `EndpointResolverBase.put_endpoint_entry` (the
base class is not under the sources provided); spec §4.5 `store(key,
endpoint|null)` stores the entry under the key in the in-memory map. -/
def putEndpointEntry (s : ResolverState) (k : String) (v : Option String) :
    ResolverState :=
  { s with endpointsData := dset s.endpointsData k v }

/-- `_make_endpoint_entry_key`: the four parts, with the product code and the
region id lower-cased, joined with `"."`. -/
def makeEndpointEntryKey (productCode locationServiceCode regionId endpointType : String) :
    String :=
  pyLower productCode ++ "." ++ locationServiceCode ++ "." ++ pyLower regionId
    ++ "." ++ endpointType

/-- `get_endpoint_key_from_request`. -/
def getEndpointKeyFromRequest (r : Request) : String :=
  makeEndpointEntryKey r.productCode r.locationServiceCode r.regionId r.endpointType

/-- Python truthiness of an optional string (`None` and `""` are falsy). -/
def truthy : Option String → Bool
  | none => false
  | some s => !(s == "")

/-- Python `a or b` on two optional strings: `a` when truthy, else `b`.  This
is `item.get("ServiceCode") or item.get("SerivceCode")` in
`_call_location_service`. -/
def pyOr (a b : Option String) : Option String :=
  if truthy a then a else b

/-- Whether the scan in `_call_location_service` selects an endpoint list
entry: its service code (under either spelling) is truthy and its `Type`
equals the requested endpoint type. -/
def isEntrySelected (item : EndpointItem) (endpointType : String) : Bool :=
  truthy (pyOr item.serviceCode item.serivceCode) && item.itemType == some endpointType

/-- The `for item in body["Endpoints"]["Endpoint"]` loop of
`_call_location_service`: cache the first selected entry's `Endpoint` field,
or `None` when no entry is selected (`found_flag` stays false). -/
def scanEndpoints (s : ResolverState) (key : String) (endpointType : String) :
    List EndpointItem → ResolverState
  | [] => putEndpointEntry s key none
  | item :: rest =>
    if isEntrySelected item endpointType then putEndpointEntry s key item.endpoint
    else scanEndpoints s key endpointType rest

/-- Whether a fetch exception matches one of the two rejection shapes
recognized by `_call_location_service`. -/
def recognizedShape : FetchError → Bool
  | .server code msg =>
    (code == "InvalidRegionId" && msg == "The specified region does not exist.")
      || (code == "Illegal Parameter" && msg == "Please check the parameters")
  | .other _ => false

/-- `_call_location_service`: interpret the outcome of the external fetch.  On
the two recognized `ServerException` shapes, record the region id (resp. the
lower-cased product code) as invalid and cache the key as `None`; on any other
exception re-raise it; on success record the product code and region id as
valid and scan the endpoint list. -/
def callLocationService (s : ResolverState) (key : String) (req : Request)
    (fetch : FetchResult) : Except FetchError ResolverState :=
  match fetch with
  | .error (.server code msg) =>
    if code == "InvalidRegionId" && msg == "The specified region does not exist." then
      .ok (putEndpointEntry
        { s with invalidRegionIds := addToSet s.invalidRegionIds req.regionId } key none)
    else if code == "Illegal Parameter" && msg == "Please check the parameters" then
      .ok (putEndpointEntry
        { s with invalidProductCodes :=
            addToSet s.invalidProductCodes req.productCodeLower } key none)
    else .error (.server code msg)
  | .error (.other tag) => .error (.other tag)
  | .ok items =>
    let s1 := { s with
      validProductCodes := addToSet s.validProductCodes req.productCodeLower,
      validRegionIds := addToSet s.validRegionIds req.regionId }
    .ok (scanEndpoints s1 key req.endpointType items)

/-- The outcome of one `resolve` call: the returned value (or the propagated
exception), the resolver state afterwards, and whether the external
describe-endpoint call was invoked. -/
structure ResolveOutcome where
  result : Except FetchError (Option String)
  state : ResolverState
  networkCalled : Bool
deriving Repr, DecidableEq

/-- `_get_endpoint_from_location_service`: re-check the cache, otherwise call
the location service and return `endpoints_data.get(key)` of the new state. -/
def getEndpointFromLocationService (s : ResolverState) (key : String)
    (req : Request) (fetch : FetchResult) : ResolveOutcome :=
  match dget s.endpointsData key with
  | some v => ⟨.ok v, s, false⟩
  | none =>
    match callLocationService s key req fetch with
    | .error e => ⟨.error e, s, true⟩
    | .ok s' => ⟨.ok ((dget s'.endpointsData key).join), s', true⟩

/-- `resolve`: the entry point.  Requests without a location service code, or
whose product code / region id is already known invalid, return `None`
immediately; a cached key returns its cached value; otherwise the location
service is consulted. -/
def resolve (s : ResolverState) (req : Request) (fetch : FetchResult) :
    ResolveOutcome :=
  if req.locationServiceCode == "" then ⟨.ok none, s, false⟩
  else if s.invalidProductCodes.contains req.productCodeLower then ⟨.ok none, s, false⟩
  else if s.invalidRegionIds.contains req.regionId then ⟨.ok none, s, false⟩
  else
    let key := getEndpointKeyFromRequest req
    match dget s.endpointsData key with
    | some v => ⟨.ok v, s, false⟩
    | none => getEndpointFromLocationService s key req fetch

/-- `find?`-style description of the scan loop: the first entry with a truthy
service code (either spelling) and a matching type. -/
def findMatchingEndpoint (endpointType : String) (items : List EndpointItem) :
    Option EndpointItem :=
  items.find? (fun item => isEntrySelected item endpointType)

/-- A request whose endpoint gets cached in the C1 scenario. -/
def c1Request : Request := ⟨"ECS", "loc", "cn-north", "open"⟩

/-- The resolver state after a successful resolution of `c1Request` has
cached its hostname. -/
def c1CachedState : ResolverState :=
  (resolve initialState c1Request
    (.ok [⟨some "ecs", none, some "open", some "ecs.aliyuncs.com"⟩])).state

/-- The state after a second request with the same product code but another
region was rejected with `Illegal Parameter`, marking the product code
invalid while `c1Request`'s key stays cached with its hostname. -/
def c1PoisonedState : ResolverState :=
  (resolve c1CachedState ⟨"ECS", "loc", "eu-west", "open"⟩
    (.error (.server "Illegal Parameter" "Please check the parameters"))).state

end Resolver

/-! ## Request signers

Embedding of `alibabacloud/signer/composer.py`.  The ambient helpers
(`time.strftime`/`time.gmtime`, `helper.get_uuid`, `helper.get_rfc_2616_date`,
`FormatType.map_format_to_accept`, `md5_sum` and the `ShaHmac1` signer
object's identifier strings) live in repository modules that are not under the
sources provided; following the spec they are pure values for one signing
operation and are modelled as an explicit environment. -/

namespace Signer

/-- A credentials object: `access_key_id`, `access_key_secret`,
`security_token`, `bearer_token` (the three `getattr`-checked fields are
optional). -/
structure Credentials where
  accessKeyId : Option String
  accessKeySecret : String
  securityToken : Option String
  bearerToken : Option String
deriving Repr, DecidableEq

/-- Modelled from the spec: the external helpers consumed by the signers —
the current UTC timestamp (`time.strftime(FORMAT_ISO_8601, time.gmtime())`),
the fresh nonce (`helper.get_uuid()`), the RFC 2616 date
(`helper.get_rfc_2616_date()`), the accept string for the JSON format
(`FormatType.map_format_to_accept('JSON')`), the signer object's
`signer_name`, `signer_version` and `signer_type` identifiers, and the MD5
helper (`md5_sum`). -/
structure Env where
  timestamp : String
  nonce : String
  rfcDate : String
  acceptJSON : String
  signerName : String
  signerVersion : String
  signerType : String
  md5Sum : String → String

/-- The fields of an API request consulted by the signers (`method`,
`action_name`, `uri_pattern`, `_content`, `_headers`, `_query_params`,
`_body_params`, `path_params`). -/
structure ApiRequest where
  method : String
  actionName : String
  uriPattern : String
  content : Option String
  headers : List (String × String)
  queryParams : List (String × Option String)
  bodyParams : List (String × Option String)
  pathParams : List (String × String)
deriving Repr, DecidableEq

/-- The dedicated failure of `alibabacloud.exceptions` raised when no
credentials are bound (`NoCredentialsException`). -/
inductive SdkError where
  | noCredentials
deriving Repr, DecidableEq

/-- `RPCSigner._pop_standard_urlencode`: the three RFC 3986 fixups. -/
def popStandardUrlencode (query : String) : String :=
  strReplace (strReplace (strReplace query "+" "%20") "*" "%2A") "%7E" "~"

/-- `RPCSigner._calc_signature`: sort the parameters by key, form-encode them,
apply the fixups, percent-encode the result again via `pathname2url`, apply
the fixups again, and prepend the method and `&%2F&`. -/
def calcSignature (method : String) (params : List (String × Option String)) :
    String :=
  let sortedParameters := sortByKey params
  let sortedQueryString := popStandardUrlencode (urlencode sortedParameters)
  let canonicalizedQueryString := popStandardUrlencode (pathname2url sortedQueryString)
  method ++ "&%2F&" ++ canonicalizedQueryString

/-- `RPCSigner._canonicalized_query_string`: raise if no credentials are
bound, else merge the signing parameters into a deep copy of the request's
query parameters. -/
def canonicalizedQueryString (credentials : Option Credentials)
    (request : ApiRequest) (version : String) (env : Env) :
    Except SdkError (List (String × Option String)) :=
  match credentials with
  | none => .error .noCredentials
  | some cred =>
    let p := request.queryParams
    let p := dset p "Version" (some version)
    let p := dset p "Action" (some request.actionName)
    let p := dset p "Format" (some "JSON")
    let p := dset p "Timestamp" (some env.timestamp)
    let p := dset p "SignatureMethod" (some env.signerName)
    let p := dset p "SignatureType" (some env.signerType)
    let p := dset p "SignatureVersion" (some env.signerVersion)
    let p := dset p "SignatureNonce" (some env.nonce)
    match cred.accessKeyId with
    | some akid => .ok (dset p "AccessKeyId" (some akid))
    | none => .ok p

/-- The state of one constructed `RPCSigner` object. -/
structure RPCState where
  credentials : Credentials
  request : ApiRequest
  parameters : List (String × Option String)
deriving Repr, DecidableEq

/-- `RPCSigner.__init__`: store the inputs and eagerly compute
`self.parameters = self._canonicalized_query_string()` (which raises when no
credentials are bound). -/
def rpcInit (credentials : Option Credentials) (request : ApiRequest)
    (version : String) (env : Env) : Except SdkError RPCState :=
  match canonicalizedQueryString credentials request version env, credentials with
  | .error e, _ => .error e
  | .ok ps, some cred => .ok ⟨cred, request, ps⟩
  | .ok _, none => .error .noCredentials

/-- The parameter merge performed by the `RPCSigner.signature` property:
update with the body parameters, then add the security/bearer token when
present.  The property mutates `self.parameters` through an alias. -/
def rpcMergeParams (cred : Credentials) (body : List (String × Option String))
    (ps : List (String × Option String)) : List (String × Option String) :=
  let ps := dsetAll ps body
  let ps := match cred.securityToken with
            | some t => dset ps "SecurityToken" (some t)
            | none => ps
  match cred.bearerToken with
  | some t => dset ps "BearerToken" (some t)
  | none => ps

/-- The token entries `rpcMergeParams` writes after the body update, as a
list: the security token and the bearer token, each when present. -/
def tokList (cred : Credentials) : List (String × Option String) :=
  (match cred.securityToken with
   | some t => [("SecurityToken", some t)]
   | none => [])
  ++ (match cred.bearerToken with
      | some t => [("BearerToken", some t)]
      | none => [])

/-- `RPCSigner.signature`: the string to sign, together with the signer state
after the property's mutation of `self.parameters`. -/
def rpcSignatureFull (st : RPCState) : String × RPCState :=
  let ps := rpcMergeParams st.credentials st.request.bodyParams st.parameters
  (calcSignature st.request.method ps, { st with parameters := ps })

/-- `ROASigner._prepare_headers`: raise if no credentials are bound, else a
deep copy of the request headers extended with the version, the region id,
the body checksum and the token headers. -/
def prepareHeaders (credentials : Option Credentials) (request : ApiRequest)
    (regionId version : String) (env : Env) :
    Except SdkError (List (String × String)) :=
  match credentials with
  | none => .error .noCredentials
  | some cred =>
    let headers := request.headers
    let headers := dset headers "x-acs-version" version
    let headers := dset headers "x-acs-region-id" regionId
    let headers := match request.content with
                   | some c => dset headers "Content-MD5" (env.md5Sum c)
                   | none => headers
    let headers := match cred.securityToken with
                   | some t => dset headers "x-acs-security-token" t
                   | none => headers
    match cred.bearerToken with
    | some t => .ok (dset headers "x-acs-bearer-token" t)
    | none => .ok headers

/-- `ROASigner._replace_occupied_parameters`: substitute each `[key]`
placeholder of the URI pattern with its bound path parameter. -/
def replaceOccupiedParameters (uriPattern : String)
    (pathParams : List (String × String)) : String :=
  pathParams.foldl (fun acc p => strReplace acc ("[" ++ p.1 ++ "]") p.2) uriPattern

/-- The state of one constructed `ROASigner` object: its headers dict
(`self._headers`) and the request's query-parameter dict are the two pieces
of state its properties mutate. -/
structure ROAState where
  credentials : Credentials
  requestMethod : String
  headers : List (String × String)
  uri : String
  queryParams : List (String × Option String)
deriving Repr, DecidableEq

/-- `ROASigner.__init__`: eagerly prepare the headers (raising when no
credentials are bound) and resolve the URI. -/
def roaInit (credentials : Option Credentials) (request : ApiRequest)
    (regionId version : String) (env : Env) : Except SdkError ROAState :=
  match prepareHeaders credentials request regionId version env, credentials with
  | .error e, _ => .error e
  | .ok hs, some cred =>
    .ok ⟨cred, request.method, hs,
      replaceOccupiedParameters request.uriPattern request.pathParams,
      request.queryParams⟩
  | .ok _, none => .error .noCredentials

/-- `ROASigner._refresh_sign_parameters`: write the date, accept and
signature-identification headers into `self._headers` (the Python `parameters`
aliases it). -/
def refreshSignParameters (headers : List (String × String)) (env : Env) :
    List (String × String) :=
  dset (dset (dset (dset headers "Date" env.rfcDate)
    "Accept" env.acceptJSON)
    "x-acs-signature-method" env.signerName)
    "x-acs-signature-version" env.signerVersion

/-- `ROASigner._build_canonical_headers(headers, "x-acs-")`: collect the
headers whose lower-cased name contains the prefix, lower-cased, sort them by
name and emit `name:value` lines. -/
def buildCanonicalHeaders (headers : List (String × String))
    (headerBegin : String) : String :=
  let unsortMap := headers.foldl
    (fun acc p =>
      if strContains (pyLower p.1) headerBegin then dset acc (pyLower p.1) p.2
      else acc)
    ([] : List (String × String))
  (sortByKey unsortMap).foldl (fun acc p => acc ++ p.1 ++ ":" ++ p.2 ++ "\n") ""

/-- `ROASigner._build_canonical_resource(uri, queries)`: split the URI at the
last question mark (`uri.rsplit("?", 1)`), fold a present query fragment into
the query dict as a `None`-valued key (mutating the request's dict), sort the
entries by key, and emit the path followed by the entries with no trailing
separator.  Returns the emitted string and the (possibly mutated) query
dict. -/
def buildCanonicalResource (uri : String)
    (queries : List (String × Option String)) :
    String × List (String × Option String) :=
  let parts := rsplitQ uri
  let queries := match parts.2 with
                 | some frag => dset queries frag none
                 | none => queries
  let sortedMap := sortByKey queries
  let qb := if sortedMap.length > 0 then parts.1 ++ "?" else parts.1
  let qb := sortedMap.foldl
    (fun acc p =>
      acc ++ p.1 ++ (match p.2 with | some v => "=" ++ v | none => "") ++ "&")
    qb
  (if lastCharIs qb '&' then strDropLast qb else qb, queries)

/-- One line of the `interesting_headers` loop of `ROASigner.signature`: the
header's value when present, then a newline. -/
def interestingLine (headers : List (String × String)) (name : String) : String :=
  (match dget headers name with | some v => v | none => "") ++ "\n"

/-- `ROASigner.signature`: refresh the sign parameters (mutating
`self._headers`), build the canonical string (mutating the request's query
dict through `_build_canonical_resource`), and return it with the mutated
state. -/
def roaSignatureFull (env : Env) (st : ROAState) : String × ROAState :=
  let headers := refreshSignParameters st.headers env
  let resource := buildCanonicalResource st.uri st.queryParams
  (pyUpper st.requestMethod ++ "\n"
      ++ interestingLine headers "Accept"
      ++ interestingLine headers "Content-MD5"
      ++ interestingLine headers "Content-Type"
      ++ interestingLine headers "Date"
      ++ buildCanonicalHeaders headers "x-acs-"
      ++ resource.1,
   { st with headers := headers, queryParams := resource.2 })

/-- `ROASigner.headers`: compute the signature (with its mutations), sign it
with the injected algorithm and write the `Authorization` header into the
same dict. -/
def roaHeadersFull (env : Env) (sign : String → String → String)
    (st : ROAState) : List (String × String) × ROAState :=
  let sr := roaSignatureFull env st
  let signature := sign sr.1 st.credentials.accessKeySecret
  let hs := dset sr.2.headers "Authorization"
    ("acs " ++ pyStr st.credentials.accessKeyId ++ ":" ++ signature)
  (hs, { sr.2 with headers := hs })

/-- The body of `ROASigner.params` on the two state pieces it reads: the URI
followed by `?` (unless already present) and the form-encoded query
parameters, with a lone trailing `?` stripped. -/
def roaParamsOf (uri : String) (queryParams : List (String × Option String)) :
    String :=
  let param := uri
  let param := if lastCharIs param '?' then param else param ++ "?"
  let param := param ++ urlencode queryParams
  if lastCharIs param '?' then strDropLast param else param

/-- `ROASigner.params`: the resolved URI with the request's (current) query
parameters form-encoded and appended. -/
def roaParams (st : ROAState) : String := roaParamsOf st.uri st.queryParams

/-- The RPC canonical string as the claim words it: the method, the literal
`&%2F&`, then the query string obtained by sorting the merged parameter
mapping by key, form-urlencoding it, applying the three fixups, percent
encoding the result a second time as a URL path, and applying the three
fixups again. -/
def rpcCanonicalOfSpec (method : String) (params : List (String × Option String)) :
    String :=
  let sorted := sortByKey params
  let onceEncoded := popStandardUrlencode (urlencode sorted)
  let twiceEncoded := popStandardUrlencode (pathname2url onceEncoded)
  method ++ "&%2F&" ++ twiceEncoded

/-- The canonical resource block as the claim words it: split the URI on the
FIRST question mark, fold a present fragment in as a `None`-valued key, sort
by key, and emit the path followed by the entries with no trailing
separator. -/
def canonicalResourceOfClaim (uri : String)
    (queries : List (String × Option String)) : String :=
  let parts := splitFirstQ uri
  let queries := match parts.2 with
                 | some frag => dset queries frag none
                 | none => queries
  let sortedMap := sortByKey queries
  let qb := if sortedMap.length > 0 then parts.1 ++ "?" else parts.1
  let qb := sortedMap.foldl
    (fun acc p =>
      acc ++ p.1 ++ (match p.2 with | some v => "=" ++ v | none => "") ++ "&")
    qb
  if lastCharIs qb '&' then strDropLast qb else qb

/-- The canonical resource block as the amended claim words it: identical to
`canonicalResourceOfClaim` except that the URI is split on the LAST question
mark. -/
def canonicalResourceOfAmendedClaim (uri : String)
    (queries : List (String × Option String)) : String :=
  let parts := rsplitQ uri
  let queries := match parts.2 with
                 | some frag => dset queries frag none
                 | none => queries
  let sortedMap := sortByKey queries
  let qb := if sortedMap.length > 0 then parts.1 ++ "?" else parts.1
  let qb := sortedMap.foldl
    (fun acc p =>
      acc ++ p.1 ++ (match p.2 with | some v => "=" ++ v | none => "") ++ "&")
    qb
  if lastCharIs qb '&' then strDropLast qb else qb

/-- A concrete constructed ROA signer state whose URI carries a query
fragment that is already a null-valued key of the query dict (the C10
scenario). -/
def c10State : ROAState :=
  ⟨⟨some "akid", "secret", none, none⟩, "get", [], "/a?b", [("b", none)]⟩

/-- A concrete environment used in the C10 scenario. -/
def c10Env : Env :=
  ⟨"2024-01-02T00:00:00Z", "uuid-0002", "Tue, 02 Jan 2024 00:00:00 GMT",
   "application/json", "HMAC-SHA1", "1.0", "", fun s => s⟩

/-- A concrete constructed ROA signer state whose URI carries a query
fragment that is NOT yet a key of the query dict (the C10 witness
scenario). -/
def c10WitState : ROAState :=
  ⟨⟨some "akid", "secret", none, none⟩, "get", [], "/w?x", [("q", some "1")]⟩

end Signer

/-! ## Supporting lemmas -/

theorem dget_dset_self {α : Type} (d : List (String × α)) (k : String) (v : α) :
    dget (dset d k v) k = some v := by
  induction d with
  | nil => simp [dget, dset]
  | cons p rest ih =>
    by_cases h : p.1 = k
    · simp [dset, dget, h]
    · simp [dset, dget, h, ih]

theorem dget_dset_ne {α : Type} (d : List (String × α)) (k k' : String) (v : α)
    (h : k' ≠ k) : dget (dset d k' v) k = dget d k := by
  induction d with
  | nil => simp [dget, dset, h]
  | cons p rest ih =>
    by_cases hp : p.1 = k'
    · simp [dset, dget, hp, h, Ne.symm h]
    · by_cases hk : p.1 = k
      · simp [dset, dget, hp, hk, h, Ne.symm h]
      · simp [dset, dget, hp, hk, ih]

theorem dset_dset_self {α : Type} (d : List (String × α)) (k : String) (v w : α) :
    dset (dset d k v) k w = dset d k w := by
  induction d with
  | nil => simp [dset]
  | cons p rest ih =>
    by_cases h : p.1 = k
    · simp [dset, h]
    · simp [dset, h, ih]

theorem dset_absorb {α : Type} (d : List (String × α)) (k : String) (v : α)
    (h : dget d k = some v) : dset d k v = d := by
  induction d with
  | nil => simp [dget] at h
  | cons p rest ih =>
    cases p with
    | mk pk pv =>
      by_cases hp : pk = k
      · subst hp
        simp [dget] at h
        simp [dset, h]
      · simp [dget, hp] at h
        simp [dset, hp, ih h]

theorem dset_eq_append {α : Type} (d : List (String × α)) (k : String) (v : α)
    (h : dget d k = none) : dset d k v = d ++ [(k, v)] := by
  induction d with
  | nil => simp [dset]
  | cons p rest ih =>
    by_cases hp : p.1 = k
    · simp [dget, hp] at h
    · simp [dget, hp] at h
      simp [dset, hp, ih h]

theorem dget_dsetAll_not_mem {α : Type} (e d : List (String × α)) (k : String)
    (h : k ∉ e.map Prod.fst) : dget (dsetAll d e) k = dget d k := by
  induction e generalizing d with
  | nil => simp [dsetAll]
  | cons p rest ih =>
    simp only [List.map_cons, List.mem_cons] at h
    push_neg at h
    have hstep : dsetAll d (p :: rest) = dsetAll (dset d p.1 p.2) rest := rfl
    rw [hstep, ih _ h.2, dget_dset_ne _ _ _ _ (fun hp => h.1 hp.symm)]

theorem dget_dset_ne_none {α : Type} (d : List (String × α)) (k k' : String) (v : α)
    (h : dget d k ≠ none) : dget (dset d k' v) k ≠ none := by
  by_cases hk : k' = k
  · subst hk
    rw [dget_dset_self]
    simp
  · rw [dget_dset_ne _ _ _ _ hk]
    exact h

theorem dget_dsetAll_ne_none {α : Type} (e : List (String × α)) (d : List (String × α))
    (k : String) (h : dget d k ≠ none) : dget (dsetAll d e) k ≠ none := by
  induction e generalizing d with
  | nil => exact h
  | cons p rest ih =>
    have hstep : dsetAll d (p :: rest) = dsetAll (dset d p.1 p.2) rest := rfl
    rw [hstep]
    exact ih _ (dget_dset_ne_none _ _ _ _ h)

theorem dset_comm_of_mem {α : Type} (d : List (String × α)) (k k' : String) (v v' : α)
    (hk : dget d k ≠ none) (hne : k ≠ k') :
    dset (dset d k v) k' v' = dset (dset d k' v') k v := by
  induction d with
  | nil => simp [dget] at hk
  | cons x xs ih =>
    obtain ⟨x1, x2⟩ := x
    by_cases h1 : x1 = k
    · have h2 : ¬ x1 = k' := by rw [h1]; exact hne
      simp [dset, h1, h2, hne, Ne.symm hne]
    · by_cases h2 : x1 = k'
      · simp [dset, h1, h2, hne, Ne.symm hne]
      · simp only [dget, h1, if_false] at hk
        simp [dset, h1, h2, ih hk]

theorem dsetAll_dset_of_mem {α : Type} (rest : List (String × α)) (X : List (String × α))
    (k : String) (v : α) (hpres : dget X k ≠ none) (hmem : k ∈ rest.map Prod.fst) :
    dsetAll (dset X k v) rest = dsetAll X rest := by
  induction rest generalizing X with
  | nil => cases hmem
  | cons q rest' ih =>
    show dsetAll (dset (dset X k v) q.1 q.2) rest' = dsetAll (dset X q.1 q.2) rest'
    by_cases hq : q.1 = k
    · have hcollapse : dset (dset X k v) q.1 q.2 = dset X q.1 q.2 := by
        rw [hq]
        exact dset_dset_self _ _ _ _
      rw [hcollapse]
    · have hmem' : k ∈ rest'.map Prod.fst := by
        simp only [List.map_cons, List.mem_cons] at hmem
        rcases hmem with h | h
        · exact absurd h.symm hq
        · exact h
      rw [dset_comm_of_mem X k q.1 v q.2 hpres (fun he => hq he.symm)]
      exact ih (dset X q.1 q.2) (dget_dset_ne_none _ _ _ _ hpres) hmem'

theorem dsetAll_idem {α : Type} :
    ∀ (e : List (String × α)) (d : List (String × α)),
      dsetAll (dsetAll d e) e = dsetAll d e
  | [], _ => rfl
  | p :: rest, d => by
    show dsetAll (dset (dsetAll (dset d p.1 p.2) rest) p.1 p.2) rest
      = dsetAll (dset d p.1 p.2) rest
    by_cases hmem : p.1 ∈ rest.map Prod.fst
    · have hpres : dget (dsetAll (dset d p.1 p.2) rest) p.1 ≠ none :=
        dget_dsetAll_ne_none rest _ _ (by rw [dget_dset_self]; simp)
      rw [dsetAll_dset_of_mem rest _ _ _ hpres hmem]
      exact dsetAll_idem rest (dset d p.1 p.2)
    · have hget : dget (dsetAll (dset d p.1 p.2) rest) p.1 = some p.2 := by
        rw [dget_dsetAll_not_mem _ _ _ hmem, dget_dset_self]
      rw [dset_absorb _ _ _ hget]
      exact dsetAll_idem rest (dset d p.1 p.2)

theorem dsetAll_append {α : Type} (d : List (String × α)) (e1 e2 : List (String × α)) :
    dsetAll d (e1 ++ e2) = dsetAll (dsetAll d e1) e2 := by
  simp [dsetAll, List.foldl_append]

theorem mem_addToSet_self (l : List String) (x : String) : x ∈ addToSet l x := by
  unfold addToSet
  by_cases h : x ∈ l
  · simp [h]
  · simp [h]

theorem strExt (s t : String) (h : s.data = t.data) : s = t := by
  cases s; cases t; exact congrArg String.mk h

theorem dataAppend (s t : String) : (s ++ t).data = s.data ++ t.data := by
  cases s; cases t; rfl

theorem strLengthData (s : String) : s.length = s.data.length := rfl

theorem strLength_append (s t : String) : (s ++ t).length = s.length + t.length := by
  rw [strLengthData, strLengthData, strLengthData, dataAppend]
  exact List.length_append _ _

theorem getLast?_mem_of_eq {α : Type} : ∀ (l : List α) (a : α), l.getLast? = some a → a ∈ l
  | [], _, h => by simp at h
  | [b], a, h => by
    simp [List.getLast?_singleton] at h
    simp [h]
  | b :: c :: rest, a, h => by
    rw [List.getLast?_cons_cons] at h
    exact List.mem_cons_of_mem _ (getLast?_mem_of_eq (c :: rest) a h)

namespace Resolver

theorem resolve_shortcircuit (s : ResolverState) (req : Request) (fetch : FetchResult)
    (hloc : (req.locationServiceCode == "") = false)
    (h : req.productCodeLower ∈ s.invalidProductCodes
      ∨ req.regionId ∈ s.invalidRegionIds) :
    resolve s req fetch = ⟨.ok none, s, false⟩ := by
  unfold resolve
  rcases h with h | h
  · simp [hloc, h]
  · by_cases hp : req.productCodeLower ∈ s.invalidProductCodes
    · simp [hloc, hp]
    · simp [hloc, hp, h]

theorem resolve_region_rejected (s : ResolverState) (req : Request)
    (hloc : (req.locationServiceCode == "") = false)
    (hp : req.productCodeLower ∉ s.invalidProductCodes)
    (hr : req.regionId ∉ s.invalidRegionIds)
    (hk : dget s.endpointsData (getEndpointKeyFromRequest req) = none) :
    resolve s req (.error (.server "InvalidRegionId" "The specified region does not exist."))
      = ⟨.ok none,
          putEndpointEntry
            { s with invalidRegionIds := addToSet s.invalidRegionIds req.regionId }
            (getEndpointKeyFromRequest req) none,
          true⟩ := by
  unfold resolve getEndpointFromLocationService callLocationService
  simp [hloc, hp, hr, hk, putEndpointEntry, dget_dset_self]

theorem resolve_product_rejected (s : ResolverState) (req : Request)
    (hloc : (req.locationServiceCode == "") = false)
    (hp : req.productCodeLower ∉ s.invalidProductCodes)
    (hr : req.regionId ∉ s.invalidRegionIds)
    (hk : dget s.endpointsData (getEndpointKeyFromRequest req) = none) :
    resolve s req (.error (.server "Illegal Parameter" "Please check the parameters"))
      = ⟨.ok none,
          putEndpointEntry
            { s with invalidProductCodes := addToSet s.invalidProductCodes req.productCodeLower }
            (getEndpointKeyFromRequest req) none,
          true⟩ := by
  unfold resolve getEndpointFromLocationService callLocationService
  simp [hloc, hp, hr, hk, putEndpointEntry, dget_dset_self]

theorem scanEndpoints_eq_find (items : List EndpointItem) (s : ResolverState)
    (key etype : String) :
    scanEndpoints s key etype items
      = putEndpointEntry s key
          ((findMatchingEndpoint etype items).bind EndpointItem.endpoint) := by
  induction items with
  | nil => rfl
  | cons item rest ih =>
    cases h : isEntrySelected item etype with
    | true => simp [scanEndpoints, findMatchingEndpoint, List.find?, h]
    | false => simp [scanEndpoints, findMatchingEndpoint, List.find?, h, ih]

theorem resolve_success (s : ResolverState) (req : Request) (items : List EndpointItem)
    (hloc : (req.locationServiceCode == "") = false)
    (hp : req.productCodeLower ∉ s.invalidProductCodes)
    (hr : req.regionId ∉ s.invalidRegionIds)
    (hk : dget s.endpointsData (getEndpointKeyFromRequest req) = none) :
    resolve s req (.ok items)
      = ⟨.ok ((findMatchingEndpoint req.endpointType items).bind EndpointItem.endpoint),
          putEndpointEntry
            { s with
              validProductCodes := addToSet s.validProductCodes req.productCodeLower,
              validRegionIds := addToSet s.validRegionIds req.regionId }
            (getEndpointKeyFromRequest req)
            ((findMatchingEndpoint req.endpointType items).bind EndpointItem.endpoint),
          true⟩ := by
  unfold resolve getEndpointFromLocationService callLocationService
  simp [hloc, hp, hr, hk, scanEndpoints_eq_find, putEndpointEntry, dget_dset_self]

end Resolver

namespace Signer

theorem dget_refreshSignParameters (h : List (String × String)) (env : Env) :
    dget (refreshSignParameters h env) "Date" = some env.rfcDate
    ∧ dget (refreshSignParameters h env) "Accept" = some env.acceptJSON
    ∧ dget (refreshSignParameters h env) "x-acs-signature-method" = some env.signerName
    ∧ dget (refreshSignParameters h env) "x-acs-signature-version" = some env.signerVersion := by
  unfold refreshSignParameters
  refine ⟨?_, ?_, ?_, ?_⟩
  · rw [dget_dset_ne _ _ _ _ (by decide), dget_dset_ne _ _ _ _ (by decide),
      dget_dset_ne _ _ _ _ (by decide), dget_dset_self]
  · rw [dget_dset_ne _ _ _ _ (by decide), dget_dset_ne _ _ _ _ (by decide), dget_dset_self]
  · rw [dget_dset_ne _ _ _ _ (by decide), dget_dset_self]
  · rw [dget_dset_self]

theorem refreshSignParameters_idem (h : List (String × String)) (env : Env) :
    refreshSignParameters (refreshSignParameters h env) env
      = refreshSignParameters h env := by
  obtain ⟨h1, h2, h3, h4⟩ := dget_refreshSignParameters h env
  show dset (dset (dset (dset (refreshSignParameters h env) "Date" env.rfcDate)
      "Accept" env.acceptJSON) "x-acs-signature-method" env.signerName)
      "x-acs-signature-version" env.signerVersion
    = refreshSignParameters h env
  rw [dset_absorb _ _ _ h1, dset_absorb _ _ _ h2, dset_absorb _ _ _ h3,
    dset_absorb _ _ _ h4]

theorem buildCanonicalResource_idem (uri : String)
    (q : List (String × Option String)) :
    buildCanonicalResource uri (buildCanonicalResource uri q).2
      = buildCanonicalResource uri q := by
  unfold buildCanonicalResource
  cases h : (rsplitQ uri).2 with
  | none => simp [h]
  | some frag => simp [h, dset_dset_self]

theorem roaSignatureFull_idem (env : Env) (st : ROAState) :
    roaSignatureFull env (roaSignatureFull env st).2 = roaSignatureFull env st := by
  unfold roaSignatureFull
  simp [refreshSignParameters_idem, buildCanonicalResource_idem]

theorem rpcMergeParams_eq_dsetAll (cred : Credentials)
    (body ps : List (String × Option String)) :
    rpcMergeParams cred body ps = dsetAll ps (body ++ tokList cred) := by
  unfold rpcMergeParams tokList
  rw [dsetAll_append, dsetAll_append]
  cases cred.securityToken <;> cases cred.bearerToken <;> rfl

theorem rpcMergeParams_idem (cred : Credentials)
    (body ps : List (String × Option String)) :
    rpcMergeParams cred body (rpcMergeParams cred body ps)
      = rpcMergeParams cred body ps := by
  simp only [rpcMergeParams_eq_dsetAll]
  exact dsetAll_idem _ _

theorem hexDigitChar_ne_qmark (n : Nat) : hexDigitChar n ≠ '?' := by
  unfold hexDigitChar
  split <;> decide

theorem qmark_not_mem_percentByte (n : Nat) : '?' ∉ (percentByte n).data := by
  unfold percentByte
  intro hm
  have hm' : '?' ∈ ['%', hexDigitChar (n / 16 % 16), hexDigitChar (n % 16)] := hm
  simp only [List.mem_cons, List.not_mem_nil, or_false] at hm'
  rcases hm' with h | h | h
  · exact absurd h (by decide)
  · exact hexDigitChar_ne_qmark _ h.symm
  · exact hexDigitChar_ne_qmark _ h.symm

theorem qmark_not_mem_stringJoin (l : List String) (h : ∀ s ∈ l, '?' ∉ s.data) :
    '?' ∉ (stringJoin l).data := by
  induction l with
  | nil => simp [stringJoin]
  | cons s rest ih =>
    simp only [stringJoin, dataAppend, List.mem_append]
    rintro (hm | hm)
    · exact h s (List.mem_cons_self _ _) hm
    · exact ih (fun t ht => h t (List.mem_cons_of_mem _ ht)) hm

theorem qmark_not_mem_quoteChar (c : Char) : '?' ∉ (quoteChar [] c).data := by
  unfold quoteChar
  by_cases hc : (isAlwaysSafe c || List.contains [] c) = true
  · simp only [hc, if_true]
    intro hm
    have hm' : '?' ∈ [c] := hm
    simp only [List.mem_singleton] at hm'
    rw [← hm'] at hc
    exact absurd hc (by decide)
  · simp only [hc, if_false]
    exact qmark_not_mem_stringJoin _ (fun s hs => by
      rcases List.mem_map.mp hs with ⟨n, _, rfl⟩
      exact qmark_not_mem_percentByte n)

theorem qmark_not_mem_quotePlusChar (c : Char) : '?' ∉ (quotePlusChar c).data := by
  unfold quotePlusChar
  by_cases h : (c == ' ') = true
  · simp only [h, if_true]
    decide
  · simp only [h, if_false]
    exact qmark_not_mem_quoteChar c

theorem qmark_not_mem_quotePlusList (l : List Char) : '?' ∉ (quotePlusList l).data := by
  induction l with
  | nil => simp [quotePlusList]
  | cons c cs ih =>
    simp only [quotePlusList, dataAppend, List.mem_append]
    rintro (h | h)
    · exact qmark_not_mem_quotePlusChar c h
    · exact ih h

theorem qmark_not_mem_encodePair (p : String × Option String) :
    '?' ∉ (encodePair p).data := by
  unfold encodePair
  simp only [dataAppend, List.mem_append]
  rintro ((h | h) | h)
  · exact qmark_not_mem_quotePlusList _ h
  · exact absurd h (by decide)
  · exact qmark_not_mem_quotePlusList _ h

theorem qmark_not_mem_urlencode :
    ∀ q : List (String × Option String), '?' ∉ (urlencode q).data
  | [] => by simp [urlencode]
  | [p] => qmark_not_mem_encodePair p
  | p :: r :: rest => by
    simp only [urlencode, dataAppend, List.mem_append]
    rintro ((h | h) | h)
    · exact qmark_not_mem_encodePair p h
    · exact absurd h (by decide)
    · exact qmark_not_mem_urlencode (r :: rest) h

theorem encodePair_data_ne_nil (p : String × Option String) :
    (encodePair p).data ≠ [] := by
  unfold encodePair
  rw [dataAppend, dataAppend]
  intro h
  rcases List.append_eq_nil.mp h with ⟨h1, _⟩
  rcases List.append_eq_nil.mp h1 with ⟨_, h2⟩
  exact absurd h2 (by decide)

theorem urlencode_data_ne_nil :
    ∀ q : List (String × Option String), q ≠ [] → (urlencode q).data ≠ []
  | [], h => absurd rfl h
  | [p], _ => encodePair_data_ne_nil p
  | p :: r :: rest, _ => by
    simp only [urlencode, dataAppend]
    intro h
    rcases List.append_eq_nil.mp h with ⟨h1, _⟩
    rcases List.append_eq_nil.mp h1 with ⟨h2, _⟩
    exact encodePair_data_ne_nil p h2

theorem urlencode_append_single :
    ∀ (q : List (String × Option String)) (e : String × Option String), q ≠ [] →
      urlencode (q ++ [e]) = urlencode q ++ "&" ++ encodePair e
  | [], _, h => absurd rfl h
  | [_], _, _ => rfl
  | p :: r :: rest, e, _ => by
    show encodePair p ++ "&" ++ urlencode ((r :: rest) ++ [e])
      = (encodePair p ++ "&" ++ urlencode (r :: rest)) ++ "&" ++ encodePair e
    rw [urlencode_append_single (r :: rest) e (by simp)]
    exact strExt _ _ (by simp [dataAppend])

theorem lastCharIs_append_q (s : String) : lastCharIs (s ++ "?") '?' = true := by
  unfold lastCharIs
  rw [dataAppend,
    List.getLast?_append_of_ne_nil _ (show ("?" : String).data ≠ [] by decide)]
  decide

theorem base_lastCharIs (uri : String) :
    lastCharIs (if lastCharIs uri '?' then uri else uri ++ "?") '?' = true := by
  by_cases h : lastCharIs uri '?'
  · simp [h]
  · simp only [h, if_false]
    exact lastCharIs_append_q uri

theorem base_data_ne_nil (uri : String) :
    (if lastCharIs uri '?' then uri else uri ++ "?").data ≠ [] := by
  have h := base_lastCharIs uri
  set b := if lastCharIs uri '?' then uri else uri ++ "?" with hb
  intro hnil
  unfold lastCharIs at h
  rw [hnil] at h
  simp at h

theorem lastCharIs_append_not_q (s u : String) (hne : u.data ≠ [])
    (hq : '?' ∉ u.data) : lastCharIs (s ++ u) '?' = false := by
  unfold lastCharIs
  rw [dataAppend, List.getLast?_append_of_ne_nil _ hne]
  cases hl : u.data.getLast? with
  | none => rfl
  | some c =>
    have hc : c ∈ u.data := getLast?_mem_of_eq _ _ hl
    have hcq : c ≠ '?' := fun he => hq (he ▸ hc)
    simp [hcq]

theorem roaParamsOf_def (uri : String) (q : List (String × Option String)) :
    roaParamsOf uri q
      = if lastCharIs ((if lastCharIs uri '?' then uri else uri ++ "?") ++ urlencode q) '?'
        then strDropLast ((if lastCharIs uri '?' then uri else uri ++ "?") ++ urlencode q)
        else (if lastCharIs uri '?' then uri else uri ++ "?") ++ urlencode q := rfl

theorem roaParamsOf_length_pos (uri : String) (q : List (String × Option String))
    (hq : q ≠ []) :
    (roaParamsOf uri q).length
      = (if lastCharIs uri '?' then uri else uri ++ "?").length + (urlencode q).length := by
  rw [roaParamsOf_def,
    if_neg (by
      rw [lastCharIs_append_not_q _ _ (urlencode_data_ne_nil q hq) (qmark_not_mem_urlencode q)]
      exact Bool.false_ne_true)]
  exact strLength_append _ _

theorem roaParamsOf_length_nil (uri : String) :
    (roaParamsOf uri []).length
      = (if lastCharIs uri '?' then uri else uri ++ "?").length - 1 := by
  rw [roaParamsOf_def]
  have hids : (if lastCharIs uri '?' then uri else uri ++ "?") ++ urlencode []
      = (if lastCharIs uri '?' then uri else uri ++ "?") :=
    strExt _ _ (by rw [dataAppend]; simp [urlencode])
  rw [hids, if_pos (base_lastCharIs uri)]
  show ((if lastCharIs uri '?' then uri else uri ++ "?").data.dropLast).length
      = (if lastCharIs uri '?' then uri else uri ++ "?").data.length - 1
  exact List.length_dropLast _

theorem roaParamsOf_ne_append (uri : String) (q : List (String × Option String))
    (frag : String) (hget : dget q frag = none) :
    roaParamsOf uri (dset q frag none) ≠ roaParamsOf uri q := by
  rw [dset_eq_append _ _ _ hget]
  intro hEq
  have hlen := congrArg String.length hEq
  have hb : 0 < (if lastCharIs uri '?' then uri else uri ++ "?").length := by
    rw [strLengthData]
    exact List.length_pos.mpr (base_data_ne_nil uri)
  cases q with
  | nil =>
    rw [roaParamsOf_length_pos _ _ (by simp), roaParamsOf_length_nil] at hlen
    omega
  | cons p rest =>
    have hq : (p :: rest) ≠ [] := by simp
    rw [roaParamsOf_length_pos _ _ (by simp), roaParamsOf_length_pos _ _ hq,
      urlencode_append_single _ _ hq, strLength_append, strLength_append] at hlen
    have hene : 0 < (encodePair (frag, none)).length := by
      rw [strLengthData]
      exact List.length_pos.mpr (encodePair_data_ne_nil _)
    have hamp : ("&" : String).length = 1 := rfl
    omega

end Signer

/-! ## Claims about the endpoint resolver -/

namespace Resolver

/-- C1, counterexample: a resolution key can be present in the endpoint cache
with a resolved hostname and yet `resolve` does not return the cached value:
after the request's product code has been recorded invalid (through a
rejection for a different region), `resolve` returns "no endpoint" even
though the cache holds the hostname.  The state is reached purely through
`resolve` calls from the initial state. -/
theorem c1_counterexample :
    dget c1PoisonedState.endpointsData (getEndpointKeyFromRequest c1Request)
        = some (some "ecs.aliyuncs.com")
      ∧ (resolve c1PoisonedState c1Request (.ok [])).result = .ok none
      ∧ (Except.ok none : Except FetchError (Option String))
        ≠ .ok (some "ecs.aliyuncs.com") := by
  refine ⟨by decide, by decide, by decide⟩

/-- C1 (amended): for every resolution key present in the endpoint cache —
including keys stored with the null "no endpoint" marker — provided the
request declares a location service code and its product code and region id
are not in the invalid sets, `resolve` returns the cached value unchanged,
leaves the state untouched and does not invoke the external describe-endpoint
call; a stored null short-circuits exactly like a resolved hostname. -/
theorem c1_theorem (s : ResolverState) (req : Request) (fetch : FetchResult)
    (v : Option String)
    (hloc : (req.locationServiceCode == "") = false)
    (hp : req.productCodeLower ∉ s.invalidProductCodes)
    (hr : req.regionId ∉ s.invalidRegionIds)
    (hk : dget s.endpointsData (getEndpointKeyFromRequest req) = some v) :
    resolve s req fetch = ⟨.ok v, s, false⟩ := by
  unfold resolve
  simp [hloc, hp, hr, hk]

/-- C1, witness: on the concrete cached state, `resolve` returns the cached
hostname with no network call; and on a state holding the null marker, it
returns "no endpoint" with no network call. -/
theorem c1_witness :
    resolve c1CachedState c1Request (.ok []) = ⟨.ok (some "ecs.aliyuncs.com"), c1CachedState, false⟩
      ∧ resolve (putEndpointEntry initialState (getEndpointKeyFromRequest c1Request) none)
          c1Request (.ok [])
        = ⟨.ok none, putEndpointEntry initialState (getEndpointKeyFromRequest c1Request) none, false⟩ :=
  ⟨c1_theorem _ _ _ _ (by decide) (by decide) (by decide) (by decide),
   c1_theorem _ _ _ _ (by decide) (by decide) (by decide) (by decide)⟩

/-- C2: when the describe-endpoint call fails with any rejection other than
the two recognized shapes — a `ServerException` with another code/message
pair, or any non-`ServerException` failure — `resolve` re-raises exactly that
exception and the whole resolver state (the endpoint cache and both
invalid-code sets included) is left exactly as it was; the network call was
made. -/
theorem c2_theorem (s : ResolverState) (req : Request) (e : FetchError)
    (hloc : (req.locationServiceCode == "") = false)
    (hp : req.productCodeLower ∉ s.invalidProductCodes)
    (hr : req.regionId ∉ s.invalidRegionIds)
    (hk : dget s.endpointsData (getEndpointKeyFromRequest req) = none)
    (hshape : recognizedShape e = false) :
    resolve s req (.error e) = ⟨.error e, s, true⟩ := by
  unfold resolve getEndpointFromLocationService callLocationService
  cases e with
  | server code msg =>
    simp only [recognizedShape, Bool.or_eq_false_iff] at hshape
    simp [hloc, hp, hr, hk, hshape.1, hshape.2]
  | other tag =>
    simp [hloc, hp, hr, hk]

/-- C2, witness: an unrecognized server rejection at a concrete request is
re-raised from the initial state, which is returned unchanged. -/
theorem c2_witness :
    resolve initialState ⟨"ECS", "loc", "cn-test", "open"⟩
        (.error (.server "Throttling" "Request was denied due to request throttling."))
      = ⟨.error (.server "Throttling" "Request was denied due to request throttling."),
          initialState, true⟩ :=
  c2_theorem _ _ _ (by decide) (by decide) (by decide) (by decide) (by decide)

/-- C6: once a resolution attempt has recorded a region id as permanently
invalid via the `InvalidRegionId` rejection, every later `resolve` call for a
request with that region id (and a location service code) — even with a
different product code — returns "no endpoint" immediately, changes nothing
and never invokes the external describe-endpoint call; and likewise for a
product code recorded invalid via the `Illegal Parameter` rejection. -/
theorem c6_theorem :
    (∀ (s : ResolverState) (req1 req2 : Request) (f2 : FetchResult),
      (req1.locationServiceCode == "") = false →
      req1.productCodeLower ∉ s.invalidProductCodes →
      req1.regionId ∉ s.invalidRegionIds →
      dget s.endpointsData (getEndpointKeyFromRequest req1) = none →
      (req2.locationServiceCode == "") = false →
      req2.regionId = req1.regionId →
      resolve (resolve s req1
          (.error (.server "InvalidRegionId" "The specified region does not exist."))).state
          req2 f2
        = ⟨.ok none,
            (resolve s req1
              (.error (.server "InvalidRegionId" "The specified region does not exist."))).state,
            false⟩)
    ∧ (∀ (s : ResolverState) (req1 req2 : Request) (f2 : FetchResult),
      (req1.locationServiceCode == "") = false →
      req1.productCodeLower ∉ s.invalidProductCodes →
      req1.regionId ∉ s.invalidRegionIds →
      dget s.endpointsData (getEndpointKeyFromRequest req1) = none →
      (req2.locationServiceCode == "") = false →
      req2.productCodeLower = req1.productCodeLower →
      resolve (resolve s req1
          (.error (.server "Illegal Parameter" "Please check the parameters"))).state
          req2 f2
        = ⟨.ok none,
            (resolve s req1
              (.error (.server "Illegal Parameter" "Please check the parameters"))).state,
            false⟩) := by
  constructor
  · intro s req1 req2 f2 h1 h2 h3 h4 h5 h6
    rw [resolve_region_rejected s req1 h1 h2 h3 h4]
    exact resolve_shortcircuit _ _ _ h5
      (Or.inr (by simp [putEndpointEntry, h6, mem_addToSet_self]))
  · intro s req1 req2 f2 h1 h2 h3 h4 h5 h6
    rw [resolve_product_rejected s req1 h1 h2 h3 h4]
    exact resolve_shortcircuit _ _ _ h5
      (Or.inl (by simp [putEndpointEntry, h6, mem_addToSet_self]))

/-- C6, witness: on concrete requests from the initial state — a rejected
region then a different product code for the same region, and a rejected
product then a different region for the same product. -/
theorem c6_witness :
    resolve (resolve initialState ⟨"ECS", "loc", "xx-region", "open"⟩
        (.error (.server "InvalidRegionId" "The specified region does not exist."))).state
        ⟨"RDS", "rds-loc", "xx-region", "open"⟩ (.ok [])
      = ⟨.ok none,
          (resolve initialState ⟨"ECS", "loc", "xx-region", "open"⟩
            (.error (.server "InvalidRegionId" "The specified region does not exist."))).state,
          false⟩
    ∧ resolve (resolve initialState ⟨"XYZ", "loc", "cn-a", "open"⟩
        (.error (.server "Illegal Parameter" "Please check the parameters"))).state
        ⟨"XYZ", "loc", "cn-b", "open"⟩ (.ok [])
      = ⟨.ok none,
          (resolve initialState ⟨"XYZ", "loc", "cn-a", "open"⟩
            (.error (.server "Illegal Parameter" "Please check the parameters"))).state,
          false⟩ :=
  ⟨c6_theorem.1 _ _ _ _ (by decide) (by decide) (by decide) (by decide) (by decide) (by decide),
   c6_theorem.2 _ _ _ _ (by decide) (by decide) (by decide) (by decide) (by decide) (by decide)⟩

/-- C7: the resolution key is the four-tuple of product code (lower-cased),
location service code, region id (lower-cased) and endpoint type joined with
the fixed separator `"."`; any two requests agreeing on the normalized
four-tuple compute identical key strings, and in particular the keys for
`("ECS","location-code","CN-Hangzhou","open")` and
`("ecs","location-code","cn-hangzhou","open")` are equal. -/
theorem c7_theorem :
    (∀ r : Request,
      getEndpointKeyFromRequest r
        = pyLower r.productCode ++ "." ++ r.locationServiceCode ++ "."
            ++ pyLower r.regionId ++ "." ++ r.endpointType)
    ∧ (∀ r1 r2 : Request,
        pyLower r1.productCode = pyLower r2.productCode →
        r1.locationServiceCode = r2.locationServiceCode →
        pyLower r1.regionId = pyLower r2.regionId →
        r1.endpointType = r2.endpointType →
        getEndpointKeyFromRequest r1 = getEndpointKeyFromRequest r2)
    ∧ getEndpointKeyFromRequest ⟨"ECS", "location-code", "CN-Hangzhou", "open"⟩
        = getEndpointKeyFromRequest ⟨"ecs", "location-code", "cn-hangzhou", "open"⟩ := by
  refine ⟨fun r => rfl, fun r1 r2 h1 h2 h3 h4 => ?_, by decide⟩
  simp [getEndpointKeyFromRequest, makeEndpointEntryKey, h1, h2, h3, h4]

/-- C7, witness: a concrete pair of requests differing only in the case of
the product code and the region id share their key. -/
theorem c7_witness :
    getEndpointKeyFromRequest ⟨"VPC", "vpc-loc", "EU-Central", "inner"⟩
      = getEndpointKeyFromRequest ⟨"vpc", "vpc-loc", "eu-central", "inner"⟩ :=
  c7_theorem.2.1 _ _ (by decide) (by decide) (by decide) (by decide)

/-- C9: on a successful describe-endpoint response the scan selects the first
entry whose `Type` equals the requested endpoint type and whose service-code
field is non-empty under either spelling; that entry's hostname is cached
under the resolution key and returned (and `None` is cached and returned when
no entry matches) — with `ServiceCode` preferred over the typo `SerivceCode`
whenever it is non-empty, and an entry carrying only the typo spelling still
selected. -/
theorem c9_theorem :
    (∀ (s : ResolverState) (req : Request) (items : List EndpointItem),
      (req.locationServiceCode == "") = false →
      req.productCodeLower ∉ s.invalidProductCodes →
      req.regionId ∉ s.invalidRegionIds →
      dget s.endpointsData (getEndpointKeyFromRequest req) = none →
      (resolve s req (.ok items)).result
          = .ok ((findMatchingEndpoint req.endpointType items).bind EndpointItem.endpoint)
        ∧ dget (resolve s req (.ok items)).state.endpointsData
            (getEndpointKeyFromRequest req)
          = some ((findMatchingEndpoint req.endpointType items).bind EndpointItem.endpoint))
    ∧ (∀ (a : String) (b : Option String),
        truthy (some a) = true → pyOr (some a) b = some a)
    ∧ (∀ (item : EndpointItem) (etype c : String),
        item.serviceCode = none → item.serivceCode = some c →
        truthy (some c) = true → item.itemType = some etype →
        isEntrySelected item etype = true) := by
  refine ⟨fun s req items hloc hp hr hk => ?_, fun a b h => by simp [pyOr, h],
    fun item etype c hsc hsr ht htype => ?_⟩
  · rw [resolve_success s req items hloc hp hr hk]
    exact ⟨rfl, by simp [putEndpointEntry, dget_dset_self]⟩
  · have hc : ¬ c = "" := by simpa [truthy] using ht
    simp [isEntrySelected, pyOr, hsc, hsr, htype, truthy, hc]

/-- C9, witness: a concrete resolution whose response carries the service
code only under the typo spelling `SerivceCode` still yields and caches the
entry's hostname; the preference and typo-selection parts at concrete
values. -/
theorem c9_witness :
    (resolve initialState ⟨"RDS", "rds-loc", "cn-test", "open"⟩
        (.ok [⟨none, some "rds", some "open", some "rds.aliyuncs.com"⟩])).result
      = .ok (some "rds.aliyuncs.com")
    ∧ pyOr (some "Rds") (some "rds") = some "Rds"
    ∧ isEntrySelected ⟨none, some "rds", some "open", some "rds.aliyuncs.com"⟩ "open" = true :=
  ⟨((c9_theorem.1 _ _ _ (by decide) (by decide) (by decide) (by decide)).1).trans (by decide),
   c9_theorem.2.1 _ _ (by decide),
   c9_theorem.2.2 _ _ _ rfl rfl (by decide) rfl⟩

end Resolver

/-! ## Claims about the signers -/

namespace Signer

/-- C3: for every RPC request the canonical string equals the HTTP method,
the literal `&%2F&`, then the query string obtained by sorting the merged
parameter mapping by key, form-urlencoding it, applying the three fixups,
percent-encoding the result a second time as a URL path, and applying the
three fixups again — both for `_calc_signature` on any parameter mapping and
for the string produced by the `signature` property on the merged mapping; a
concrete sample is evaluated. -/
theorem c3_theorem :
    (∀ (method : String) (params : List (String × Option String)),
      calcSignature method params = rpcCanonicalOfSpec method params)
    ∧ (∀ st : RPCState,
        (rpcSignatureFull st).1
          = rpcCanonicalOfSpec st.request.method
              (rpcMergeParams st.credentials st.request.bodyParams st.parameters))
    ∧ calcSignature "GET" [("Action", some "DescribeRegions")]
        = "GET&%2F&Action%3DDescribeRegions" :=
  ⟨fun _ _ => rfl, fun _ => rfl, rfl⟩

/-- C5, counterexample: constructing an RPC signer without credentials does
not succeed — `RPCSigner.__init__` already raises the no-credentials failure
(its body invokes `_canonicalized_query_string` eagerly), contradicting the
claim that the RPC authenticator constructs successfully and raises only
lazily. -/
theorem c5_counterexample :
    rpcInit none ⟨"GET", "DescribeRegions", "/", none, [], [], [], []⟩
        "2014-05-26" ⟨"ts", "nonce", "date", "application/json", "HMAC-SHA1", "1.0", "", fun _ => ""⟩
      = .error .noCredentials := rfl

/-- C5 (amended): when no credentials are bound, both authenticators raise
the dedicated no-credentials failure at construction time — ROA through its
eager header preparation, RPC because its constructor invokes
canonicalization immediately (the canonicalization routine is the raiser);
with credentials bound, both construct successfully. -/
theorem c5_theorem (req : ApiRequest) (regionId version : String) (env : Env)
    (cred : Credentials) :
    roaInit none req regionId version env = .error .noCredentials
    ∧ rpcInit none req version env = .error .noCredentials
    ∧ canonicalizedQueryString none req version env = .error .noCredentials
    ∧ (roaInit (some cred) req regionId version env).isOk = true
    ∧ (rpcInit (some cred) req version env).isOk = true := by
  refine ⟨rfl, rfl, rfl, ?_, ?_⟩
  · rcases req with ⟨m, an, up, content, hd, qp, bp, pp⟩
    rcases cred with ⟨akid, secret, stok, btok⟩
    unfold roaInit prepareHeaders
    cases content <;> cases stok <;> cases btok <;> rfl
  · rcases cred with ⟨akid, secret, stok, btok⟩
    unfold rpcInit canonicalizedQueryString
    cases akid <;> rfl

/-- C8, counterexample: `_build_canonical_resource` splits the URI at the
LAST question mark (`rsplit("?", 1)`), not the first: on the URI `/p?x?y`
with one query parameter the code's output differs from the output prescribed
by the claim's first-question-mark split. -/
theorem c8_counterexample :
    (buildCanonicalResource "/p?x?y" [("a", some "1")]).1 = "/p?x?a=1&y"
    ∧ canonicalResourceOfClaim "/p?x?y" [("a", some "1")] = "/p?a=1&x?y"
    ∧ ("/p?x?a=1&y" : String) ≠ "/p?a=1&x?y" :=
  ⟨by decide, by decide, by decide⟩

/-- C8 (amended): the ROA canonical resource block is built by splitting the
resolved URI on the LAST `?`; when a query fragment exists its raw text is
added to the request's query parameters as a key with a null value; all
resulting parameters are sorted by key and emitted after the path as
`?key=value&key2&...` with `=value` omitted for null-valued entries and no
trailing `&` separator. -/
theorem c8_theorem (uri : String) (queries : List (String × Option String)) :
    (buildCanonicalResource uri queries).1 = canonicalResourceOfAmendedClaim uri queries
    ∧ (buildCanonicalResource uri queries).2
      = (match (rsplitQ uri).2 with
         | some frag => dset queries frag none
         | none => queries) :=
  ⟨rfl, rfl⟩

/-- C4: for every fixed constructed signer state, credentials, region id,
version and environment (clock, nonce, signing-algorithm identifiers),
evaluating the canonical string twice — threading through the state mutations
the first evaluation performs — yields byte-identical strings under both the
RPC and the ROA convention, and therefore byte-identical signatures for any
signing function and secret.  No restriction is placed on the request: in
particular the body parameters may contain `SecurityToken`/`BearerToken`
keys or duplicate keys. -/
theorem c4_theorem (rpcSt : RPCState) (roaSt : ROAState) (env : Env)
    (sign : String → String → String) (secret : String) :
    ((rpcSignatureFull (rpcSignatureFull rpcSt).2).1 = (rpcSignatureFull rpcSt).1
      ∧ sign ((rpcSignatureFull (rpcSignatureFull rpcSt).2).1) secret
        = sign ((rpcSignatureFull rpcSt).1) secret)
    ∧ ((roaSignatureFull env (roaSignatureFull env roaSt).2).1
        = (roaSignatureFull env roaSt).1
      ∧ sign ((roaSignatureFull env (roaSignatureFull env roaSt).2).1) secret
        = sign ((roaSignatureFull env roaSt).1) secret) := by
  have hrpc : (rpcSignatureFull (rpcSignatureFull rpcSt).2).1 = (rpcSignatureFull rpcSt).1 := by
    show calcSignature rpcSt.request.method
        (rpcMergeParams rpcSt.credentials rpcSt.request.bodyParams
          (rpcMergeParams rpcSt.credentials rpcSt.request.bodyParams rpcSt.parameters))
      = calcSignature rpcSt.request.method
          (rpcMergeParams rpcSt.credentials rpcSt.request.bodyParams rpcSt.parameters)
    rw [rpcMergeParams_idem]
  have hroa : (roaSignatureFull env (roaSignatureFull env roaSt).2).1
      = (roaSignatureFull env roaSt).1 :=
    congrArg Prod.fst (roaSignatureFull_idem env roaSt)
  exact ⟨⟨hrpc, congrArg (fun s => sign s secret) hrpc⟩,
    ⟨hroa, congrArg (fun s => sign s secret) hroa⟩⟩

/-- C10, counterexample: the resolved URI `/a?b` contains a `?`, yet the
`params` property returns the SAME string before and after evaluating the
signature, because the fragment `b` is already a null-valued key of the query
dict (the insertion replaces it with itself), contradicting the claim that
`params` differs whenever the URI contains a `?`. -/
theorem c10_counterexample :
    (rsplitQ c10State.uri).2 = some "b"
    ∧ roaParams (roaSignatureFull c10Env c10State).2 = roaParams c10State :=
  ⟨rfl, rfl⟩

/-- C10 (amended): evaluating the ROA signature is not read-only: it writes
`Date`, `Accept`, `x-acs-signature-method` and `x-acs-signature-version` into
the same header mapping that the `headers` property later returns, and,
whenever the resolved URI contains a `?`, it inserts the URI's query fragment
as a null-valued key into the request's own query-parameter mapping — so,
provided the fragment is not already a key of that mapping, the `params`
property returns a different string when evaluated after the signature than
when evaluated before it. -/
theorem c10_theorem (env : Env) (st : ROAState) (sign : String → String → String) :
    (dget (roaSignatureFull env st).2.headers "Date" = some env.rfcDate
      ∧ dget (roaSignatureFull env st).2.headers "Accept" = some env.acceptJSON
      ∧ dget (roaSignatureFull env st).2.headers "x-acs-signature-method" = some env.signerName
      ∧ dget (roaSignatureFull env st).2.headers "x-acs-signature-version" = some env.signerVersion)
    ∧ (dget (roaHeadersFull env sign st).1 "Date" = some env.rfcDate
      ∧ dget (roaHeadersFull env sign st).1 "Accept" = some env.acceptJSON
      ∧ dget (roaHeadersFull env sign st).1 "x-acs-signature-method" = some env.signerName
      ∧ dget (roaHeadersFull env sign st).1 "x-acs-signature-version" = some env.signerVersion)
    ∧ (∀ frag : String, (rsplitQ st.uri).2 = some frag →
        (roaSignatureFull env st).2.queryParams = dset st.queryParams frag none)
    ∧ (∀ frag : String, (rsplitQ st.uri).2 = some frag →
        dget st.queryParams frag = none →
        roaParams (roaSignatureFull env st).2 ≠ roaParams st) := by
  obtain ⟨hd, ha, hm, hv⟩ := dget_refreshSignParameters st.headers env
  have hsig : (roaSignatureFull env st).2.headers = refreshSignParameters st.headers env := rfl
  have hauth : ∀ k : String, ("Authorization" : String) ≠ k →
      dget (roaHeadersFull env sign st).1 k
        = dget (refreshSignParameters st.headers env) k := fun k hk => by
    show dget (dset (refreshSignParameters st.headers env) "Authorization" _) k = _
    exact dget_dset_ne _ _ _ _ hk
  have hqp : ∀ frag : String, (rsplitQ st.uri).2 = some frag →
      (roaSignatureFull env st).2.queryParams = dset st.queryParams frag none := by
    intro frag hfrag
    show (buildCanonicalResource st.uri st.queryParams).2 = dset st.queryParams frag none
    unfold buildCanonicalResource
    simp [hfrag]
  refine ⟨⟨hsig ▸ hd, hsig ▸ ha, hsig ▸ hm, hsig ▸ hv⟩,
    ⟨(hauth "Date" (by decide)).trans hd, (hauth "Accept" (by decide)).trans ha,
     (hauth "x-acs-signature-method" (by decide)).trans hm,
     (hauth "x-acs-signature-version" (by decide)).trans hv⟩,
    hqp, ?_⟩
  intro frag hfrag hget
  show roaParamsOf (roaSignatureFull env st).2.uri (roaSignatureFull env st).2.queryParams
    ≠ roaParamsOf st.uri st.queryParams
  have huri : (roaSignatureFull env st).2.uri = st.uri := rfl
  rw [huri, hqp frag hfrag]
  exact roaParamsOf_ne_append st.uri st.queryParams frag hget

/-- C10, witness: the frame effect at a concrete state whose URI fragment is
not yet a key of the query mapping — the date header is written, the
null-valued key is inserted, and the `params` string changes. -/
theorem c10_witness :
    (rsplitQ c10WitState.uri).2 = some "x"
    ∧ dget c10WitState.queryParams "x" = none
    ∧ dget (roaSignatureFull c10Env c10WitState).2.headers "Date" = some c10Env.rfcDate
    ∧ (roaSignatureFull c10Env c10WitState).2.queryParams
      = dset c10WitState.queryParams "x" none
    ∧ roaParams (roaSignatureFull c10Env c10WitState).2 ≠ roaParams c10WitState :=
  ⟨by decide, by decide,
   (c10_theorem c10Env c10WitState (fun a _ => a)).1.1,
   (c10_theorem c10Env c10WitState (fun a _ => a)).2.2.1 "x" (by decide),
   (c10_theorem c10Env c10WitState (fun a _ => a)).2.2.2 "x" (by decide) (by decide)⟩

end Signer

end AlibabaCloud
